import Mathlib

/-!
Shallow embedding of `src/data_processor.py` (class `DataProcessor`) from the
ProjectDashboard repository, together with proofs settling the frozen claims
about its specification.

Modelling conventions:
* a pandas cell is a `Cell`: `missing` (NaN), `num` (numeric, modelled as `ℚ`),
  or `str` (text);
* a DataFrame is a `Table`: a list of column headers plus a list of rows;
* Python dicts (insertion-ordered) are association lists built with `updateA`
  (replace-in-place on an existing key, append for a new key), matching dict
  assignment order semantics;
* Python exceptions inside `_process_task_status_data` (the only place the
  translated code can raise on `Cell` data: `sum()` over a list containing a
  string) are modelled with `Except`;
* `float(...)` on stripped percentage text is modelled by `parseNum`, a
  decimal-notation parser (sign, digits, optional fractional part).
-/

namespace ProjectDashboard

/-- A spreadsheet cell: NaN/empty, a numeric value, or a text value. -/
inductive Cell : Type
  | missing : Cell
  | num : ℚ → Cell
  | str : String → Cell
deriving DecidableEq, Repr

/-- A logical table: ordered column headers and rows of cells
(`pandas.DataFrame` with string column labels). -/
structure Table : Type where
  headers : List String
  rows : List (List Cell)
deriving DecidableEq, Repr

/-- `DataFrame.empty`: true when either axis has length zero. -/
def isEmptyT (t : Table) : Bool :=
  t.rows.isEmpty || t.headers.isEmpty

/-- The empty DataFrame (`pd.DataFrame()`). -/
def emptyTable : Table := ⟨[], []⟩

/-- Positional cell access in a row; out-of-range reads are NaN
(pandas aligns ragged data with NaN). -/
def getCell (r : List Cell) (i : ℕ) : Cell :=
  r.getD i Cell.missing

/-- Association-list lookup (Python `dict` access). -/
def lookupA {α β : Type} [DecidableEq α] (k : α) : List (α × β) → Option β
  | [] => none
  | (k', v') :: rest => if k' = k then some v' else lookupA k rest

/-- Association-list update: Python `dict` assignment — replace in place when
the key exists, append otherwise (insertion order preserved). -/
def updateA {α β : Type} [DecidableEq α] (k : α) (v : β) : List (α × β) → List (α × β)
  | [] => [(k, v)]
  | (k', v') :: rest => if k' = k then (k, v) :: rest else (k', v') :: updateA k v rest

/-- Repeated dict assignment `d[k] := f k` over a list of keys. -/
def foldUpd {α β : Type} [DecidableEq α] (keys : List α) (f : α → β)
    (init : List (α × β)) : List (α × β) :=
  keys.foldl (fun acc k => updateA k (f k) acc) init

/-- Substring containment on char lists (`pat in s` for Python strings). -/
def containsAux (pat : List Char) : List Char → Bool
  | [] => pat.isEmpty
  | c :: cs => pat.isPrefixOf (c :: cs) || containsAux pat cs

/-- Python `pat in s` substring test. -/
def containsSub (s pat : String) : Bool :=
  containsAux pat.toList s.toList

/-- Decimal digits to a natural number (`int(...)` on a digit group). -/
def digitsToNat (cs : List Char) : ℕ :=
  cs.foldl (fun a c => 10 * a + (c.toNat - 48)) 0

/-- First match of the regex `(\d+)月` in a string, returning the captured
number: the leftmost maximal digit run immediately followed by `月`. -/
def monthMatchAux : ℕ → List Char → Option ℕ
  | 0, _ => none
  | _, [] => none
  | fuel + 1, c :: rest =>
    if c.isDigit then
      match List.dropWhile Char.isDigit (c :: rest) with
      | '月' :: _ => some (digitsToNat (List.takeWhile Char.isDigit (c :: rest)))
      | after => monthMatchAux fuel after
    else monthMatchAux fuel rest

/-- `re.search(r'(\d+)月', s)` returning the captured month number. -/
def monthMatch (s : String) : Option ℕ :=
  monthMatchAux s.toList.length s.toList

/-- Numeric parse of integer-part/fraction-part digit groups. -/
def parseFrac (ip fp : List Char) : Option ℚ :=
  if (ip ++ fp).isEmpty then none
  else if ip.all Char.isDigit && fp.all Char.isDigit then
    some ((digitsToNat ip : ℚ) + (digitsToNat fp : ℚ) / ((10 : ℚ) ^ fp.length))
  else none

/-- Unsigned decimal-notation parse (`123`, `1.5`, `.5`, `5.`). -/
def parseUnsigned (cs : List Char) : Option ℚ :=
  let ip := cs.takeWhile (fun c => !(c = '.' : Bool))
  match cs.dropWhile (fun c => !(c = '.' : Bool)) with
  | [] => parseFrac ip []
  | _ :: fp => if fp.contains '.' then none else parseFrac ip fp

/-- Python `float(s)` restricted to plain decimal notation (optional sign,
digits, at most one decimal point); other inputs fail. -/
def parseNum (s : String) : Option ℚ :=
  match s.toList with
  | '-' :: rest => (parseUnsigned rest).map (fun q => -q)
  | '+' :: rest => parseUnsigned rest
  | cs => parseUnsigned cs

/-- Python `s.strip(MOD)` for the percent sign: drop leading and trailing
`%` characters. -/
def stripPct (s : String) : String :=
  let cs := s.toList.dropWhile (fun c => (c = '%' : Bool))
  String.mk ((cs.reverse.dropWhile (fun c => (c = '%' : Bool))).reverse)

/-- `pandas.unique` on a column: distinct values in first-seen order. -/
def dedupAux : List Cell → List Cell → List Cell
  | [], acc => acc.reverse
  | c :: rest, acc => if acc.contains c then dedupAux rest acc else dedupAux rest (c :: acc)

/-- Distinct values, first-seen order. -/
def dedupFirst (l : List Cell) : List Cell :=
  dedupAux l []

/-- Ascending insertion for `sorted(...)` on month numbers. -/
def insAsc (x : ℕ) : List ℕ → List ℕ
  | [] => [x]
  | y :: ys => if x ≤ y then x :: y :: ys else y :: insAsc x ys

/-- Python `sorted` on a list of naturals (keys are distinct here). -/
def sortNat (l : List ℕ) : List ℕ :=
  l.foldl (fun acc x => insAsc x acc) []

/-- Stable descending insertion by the second component: the element goes
after every earlier element whose key is `≥` its own. -/
def insDesc (x : Cell × ℚ) : List (Cell × ℚ) → List (Cell × ℚ)
  | [] => [x]
  | y :: ys => if y.2 < x.2 then x :: y :: ys else y :: insDesc x ys

/-- Python `sorted(items, reverse=True)` by value: stable descending sort. -/
def sortDesc (l : List (Cell × ℚ)) : List (Cell × ℚ) :=
  l.foldl (fun acc x => insDesc x acc) []

/-- The fixed metric triple `self.metrics`: completed-task count, output
artifacts, review count. -/
def metricsList : List String := ["完成任务数", "输出物", "审签数"]

/-- ProcessedMetrics: department → month name → metric name → stored cell. -/
abbrev PD := List (Cell × List (String × List (String × Cell)))

/-- MonthlyStats: month name → metric name → sum. -/
abbrev MS := List (String × List (String × ℚ))

/-- CompletionRate: department → month name → rate, `none` being NaN
("no data"). -/
abbrev CD := List (Cell × List (String × Option ℚ))

/-- Temporary per-department per-month completion-value lists
(`dept_month_values`). -/
abbrev DMV := List (Cell × List (String × List ℚ))

/-- The mutable fields of a `DataProcessor` object. -/
structure State : Type where
  summary_data : Option Table
  task_status_data : Option Table
  departments : List Cell
  months : List String
  year : Option Int
  monthly_stats : MS
  processed_data : PD
  completion_data : CD
deriving DecidableEq, Repr

/-- `DataProcessor.__init__`. -/
def initState : State :=
  { summary_data := none, task_status_data := none, departments := [], months := []
    year := none, monthly_stats := [], processed_data := [], completion_data := [] }

/-- Department-column resolution (`_process_summary_data` lines 104–112 and
`_process_task_status_data` lines 213–221): first header containing the
department marker `部门`, else column 0. -/
def deptColIdx (t : Table) : ℕ :=
  match t.headers.find? (fun h => containsSub h "部门") with
  | some h => t.headers.indexOf h
  | none => 0

/-- Departments list: distinct non-NaN values of the department column,
first-seen order (`dropna().unique().tolist()`). -/
def depsOf (t : Table) : List Cell :=
  dedupFirst ((t.rows.map (fun r => getCell r (deptColIdx t))).filter
    (fun c => !(c = Cell.missing : Bool)))

/-- `month_metrics_mapping`: for each header matching `(\d+)月` with at least
two further columns to its right, bind the matched column and the next two
(by position) as the metric triple; a later match on the same month number
overwrites the earlier binding. -/
def buildMonthMapping (headers : List String) : List (ℕ × List String) :=
  headers.foldl (fun acc col =>
    match monthMatch col with
    | none => acc
    | some m =>
      let idx := headers.indexOf col
      if idx + 2 < headers.length then
        updateA m [headers.getD idx "", headers.getD (idx + 1) "", headers.getD (idx + 2) ""] acc
      else acc) []

/-- `sorted_months`: matched month numbers sorted ascending. -/
def monthsNums (t : Table) : List ℕ :=
  sortNat ((buildMonthMapping t.headers).map Prod.fst)

/-- Canonical month display name. -/
def monthName (n : ℕ) : String := toString n ++ "月"

/-- `self.months` after `_process_summary_data`. -/
def monthsOf (t : Table) : List String :=
  (monthsNums t).map monthName

/-- Reading one metric cell for a department (lines 179–188): value at the
bound column from the first matching row only; NaN becomes 0; a column label
not present in the table becomes 0. -/
def readMetricVal (headers : List String) (dept_rows : List (List Cell)) (col : String) : Cell :=
  if headers.contains col then
    let v := getCell (dept_rows.headD []) (headers.indexOf col)
    if v = Cell.missing then Cell.num 0 else v
  else Cell.num 0

/-- `self.processed_data` as rebuilt by `_process_summary_data`
(lines 153–188). -/
def pdOf (t : Table) : PD :=
  let deptIdx := deptColIdx t
  let mapping := buildMonthMapping t.headers
  (depsOf t).foldl (fun pd dept =>
    let pd := updateA dept [] pd
    let dept_rows := t.rows.filter (fun r => decide (getCell r deptIdx = dept))
    if dept_rows.isEmpty then pd
    else
      let entry := (monthsNums t).foldl (fun entry mnum =>
        match lookupA mnum mapping with
        | none => entry
        | some metric_cols =>
          let mentry := metricsList.enum.foldl (fun me p =>
            if p.1 < metric_cols.length then
              updateA p.2 (readMetricVal t.headers dept_rows (metric_cols.getD p.1 "")) me
            else updateA p.2 (Cell.num 0) me) []
          updateA (monthName mnum) mentry entry) []
      updateA dept entry pd) []

/-- One department's contribution to a monthly stat (lines 439–445): the
stored value when present and numeric, else 0. -/
def contribOf (pd : PD) (dept : Cell) (month metric : String) : ℚ :=
  match lookupA dept pd with
  | none => 0
  | some dm =>
    match lookupA month dm with
    | none => 0
    | some mm =>
      match lookupA metric mm with
      | some (Cell.num q) => q
      | _ => 0

/-- The fresh per-month stats entry of `_calculate_monthly_stats`. -/
def statFor (deps : List Cell) (pd : PD) (month : String) : List (String × ℚ) :=
  metricsList.map (fun metric => (metric, deps.foldl (fun a dept => a + contribOf pd dept month metric) 0))

/-- `_calculate_monthly_stats` (lines 431–445): no-op on empty processed
data; otherwise overwrite each known month's entry in `self.monthly_stats`
(a dict that is never cleared) with freshly computed sums. -/
def calcMonthlyStats (s : State) : State :=
  if s.processed_data.isEmpty then s
  else { s with monthly_stats := foldUpd s.months (statFor s.departments s.processed_data) s.monthly_stats }

/-- `_process_summary_data` (lines 97–199): early return when the primary
table is absent or empty; else rebuild departments, months and
ProcessedMetrics from the table and recompute monthly stats. -/
def processSummary (s : State) : State :=
  match s.summary_data with
  | none => s
  | some t =>
    if isEmptyT t then s
    else
      calcMonthlyStats
        { s with departments := depsOf t, months := monthsOf t, processed_data := pdOf t }

/-- Month names `1月` … `12月` (the secondary table considers all twelve
months a priori). -/
def monthNames12 : List String :=
  (List.range' 1 12).map monthName

/-- Initial CompletionRate structure (lines 228–234): every department from
the primary table × every month 1–12, all NaN. -/
def initCD (deps : List Cell) : CD :=
  deps.foldl (fun cd d => updateA d (monthNames12.map (fun m => (m, (none : Option ℚ)))) cd) []

/-- Initial `dept_month_values` (lines 266–271). -/
def initDMV (deps : List Cell) : DMV :=
  deps.foldl (fun a d => updateA d (monthNames12.map (fun m => (m, ([] : List ℚ)))) a) []

/-- Append one value to `dept_month_values[dept][m]`. -/
def appendDMV (dept : Cell) (m : String) (v : ℚ) (dmv : DMV) : DMV :=
  let e := (lookupA dept dmv).getD []
  updateA dept (updateA m (((lookupA m e).getD []) ++ [v]) e) dmv

/-- Candidate rate column at index `i` (lines 249–263 / 328–342): a header
containing the planned-completion-rate phrase, or an `Unnamed:` header whose
first-row cell text contains that phrase. -/
def rateColAt (t : Table) (i : ℕ) : Option String :=
  let check := t.headers.getD i ""
  if containsSub check "计划任务完成率" then some check
  else if containsSub check "Unnamed:" then
    if t.rows.length > 0 then
      match getCell (t.rows.headD []) i with
      | Cell.str cv => if containsSub cv "计划任务完成率" then some check else none
      | _ => none
    else none
  else none

/-- Search up to 6 columns rightward (inclusive) from `startIdx` for a rate
column. -/
def findRateCol (t : Table) (startIdx : ℕ) : Option String :=
  (List.range' startIdx (min (startIdx + 6) t.headers.length - startIdx)).findSome? (rateColAt t)

/-- Normalization of one raw cell before averaging (lines 287–299):
NaN is skipped; percent-marked text is parsed with the marker stripped
(unparsable text skipped); a numeric `≤ 1` is scaled by 100; any other text
is kept raw (and later poisons the `sum`). -/
def normCell : Cell → Option Cell
  | Cell.missing => none
  | Cell.str s =>
    if containsSub s "%" then
      match parseNum (stripPct s) with
      | some q => some (Cell.num q)
      | none => none
    else some (Cell.str s)
  | Cell.num q => if q ≤ 1 then some (Cell.num (q * 100)) else some (Cell.num q)

/-- `valid_values` collected from a department's rows at a column index. -/
def collectValid (rows : List (List Cell)) (i : ℕ) : List Cell :=
  rows.filterMap (fun r => normCell (getCell r i))

/-- Is the cell a Python `str`? -/
def isStrCell : Cell → Bool
  | Cell.str _ => true
  | _ => false

/-- Numeric content of a cell (0 otherwise). -/
def cellQ : Cell → ℚ
  | Cell.num q => q
  | _ => 0

/-- `sum(l) / len(l)`. -/
def listAvg (l : List ℚ) : ℚ :=
  l.sum / (l.length : ℚ)

/-- `if valid_values: avg = sum(valid_values)/len(valid_values)`
(lines 302–303): no value on an empty list; a `TypeError` when the list holds
a raw string; else the arithmetic mean. -/
def avgValid (l : List Cell) : Except String (Option ℚ) :=
  if l.isEmpty then Except.ok none
  else if l.any isStrCell then Except.error "unsupported operand for sum"
  else Except.ok (some (listAvg (l.map cellQ)))

/-- Per-department processing of one located rate column: select the
department's rows, collect and normalize valid values, and append the mean
to each month in `months` (lines 276–308 / 347–378). -/
def deptPhase (t : Table) (deptIdx : ℕ) (rc : String) (months : List String)
    (dept : Cell) (dmv : DMV) : Except String DMV :=
  let dept_rows := t.rows.filter (fun r => decide (getCell r deptIdx = dept))
  if dept_rows.isEmpty || !(t.headers.contains rc) then Except.ok dmv
  else
    match avgValid (collectValid dept_rows (t.headers.indexOf rc)) with
    | Except.error e => Except.error e
    | Except.ok none => Except.ok dmv
    | Except.ok (some a) => Except.ok (months.foldl (fun acc m => appendDMV dept m a acc) dmv)

/-- Combined 1–2月 phase (lines 273–308): when a rate column was located near
the `1~2月` header, assign each department's mean to months 1 and 2. -/
def combinedPhase (t : Table) (deptIdx : ℕ) (rateCol : Option String)
    (deps : List Cell) (dmv : DMV) : Except String DMV :=
  match rateCol with
  | none => Except.ok dmv
  | some rc => deps.foldlM (fun acc dept => deptPhase t deptIdx rc ["1月", "2月"] dept acc) dmv

/-- Months 3–12 phase (lines 310–378): locate each month's header, then a
rate column up to 6 columns rightward, then per-department means. -/
def monthlyPhase (t : Table) (deptIdx : ℕ) (deps : List Cell) (dmv : DMV) :
    Except String DMV :=
  (List.range' 3 10).foldlM (fun acc n =>
    match t.headers.find? (fun c => containsSub c (monthName n)) with
    | none => Except.ok acc
    | some mc =>
      match findRateCol t (t.headers.indexOf mc) with
      | none => Except.ok acc
      | some rc => deps.foldlM (fun a dept => deptPhase t deptIdx rc [monthName n] dept a) acc) dmv

/-- Final averaging (lines 380–384): each nonempty value list becomes the
mean, written over the NaN-initialized structure. -/
def finalCD (deps : List Cell) (dmv : DMV) (cd : CD) : CD :=
  deps.foldl (fun cd dept =>
    ((lookupA dept dmv).getD []).foldl (fun cd p =>
      if p.2.isEmpty then cd
      else updateA dept (updateA p.1 (some (listAvg p.2)) ((lookupA dept cd).getD [])) cd) cd) cd

/-- The completion-rate extraction over a nonempty secondary table
(`_process_task_status_data` body), as a function of the table and the
primary departments list. -/
def cdCompute (t : Table) (deps : List Cell) : Except String CD :=
  let deptIdx := deptColIdx t
  let combinedRate :=
    match t.headers.find? (fun c => containsSub c "1~2月") with
    | none => none
    | some cc => findRateCol t (t.headers.indexOf cc)
  match combinedPhase t deptIdx combinedRate deps (initDMV deps) with
  | Except.error e => Except.error e
  | Except.ok dmv1 =>
    match monthlyPhase t deptIdx deps dmv1 with
    | Except.error e => Except.error e
    | Except.ok dmv2 => Except.ok (finalCD deps dmv2 (initCD deps))

/-- `_process_task_status_data` (lines 201–429): early return when the
secondary table is absent or empty; `self.completion_data` is assigned only
at the very end, so a raised error leaves the object untouched. -/
def processTaskStatus (s : State) : Except String State :=
  match s.task_status_data with
  | none => Except.ok s
  | some t =>
    if isEmptyT t then Except.ok s
    else
      match cdCompute t s.departments with
      | Except.error e => Except.error e
      | Except.ok cd => Except.ok { s with completion_data := cd }

/-- The default-year assignment of `process_data` (lines 87–90). -/
def yearUpd (nowYear : Int) (s : State) : State :=
  if s.year = none then { s with year := some nowYear } else s

/-- `process_data` (lines 69–95): `False` when no primary table is loaded;
else process the primary table, then the secondary table when present and
nonempty; an exception is caught and reported as `False`, with all state
changes made so far kept. -/
def processData (nowYear : Int) (s : State) : Bool × State :=
  match s.summary_data with
  | none => (false, s)
  | some _ =>
    let s1 := processSummary s
    match (match s1.task_status_data with
           | some t => if isEmptyT t then Except.ok s1 else processTaskStatus s1
           | none => Except.ok s1) with
    | Except.ok s2 => (true, yearUpd nowYear s2)
    | Except.error _ => (false, s1)

/-- `get_department_monthly_metrics` (lines 497–511). -/
def getDeptMonthlyMetrics (s : State) : List String × List Cell × PD :=
  if s.processed_data.isEmpty then (s.months, s.departments, [])
  else (s.months, s.departments, s.processed_data)

/-- `dept_avg_rates` (lines 465–472): for each department present in the
completion structure, the mean over its non-NaN months among the known
(primary-table) months. -/
def deptAvgRates (s : State) : List (Cell × ℚ) :=
  s.departments.foldl (fun acc dept =>
    match lookupA dept s.completion_data with
    | none => acc
    | some e =>
      let valid := (s.months.map (fun m => (lookupA m e).join)).filterMap id
      if valid.isEmpty then acc else updateA dept (listAvg valid) acc) []

/-- `get_department_monthly_completion_rates` (lines 447–495): the constant
50% fallback when the completion structure is empty; else rank departments by
mean available rate (stable descending), pad with remaining departments, and
return each selected department's per-known-month series. -/
def getRates (s : State) (n : ℕ) : List String × List (List (Option ℚ)) × List Cell :=
  if s.completion_data.isEmpty then
    (s.months, List.replicate n (List.replicate s.months.length (some 50)), s.departments.take n)
  else
    let sorted := sortDesc (deptAvgRates s)
    let top0 := (sorted.take n).map Prod.fst
    let top := top0 ++ (s.departments.filter (fun d => !(top0.contains d))).take (n - top0.length)
    let series := top.map (fun dept =>
      s.months.map (fun m => ((lookupA dept s.completion_data).bind (fun e => lookupA m e)).join))
    (s.months, series, top)

/-- `load_excel` (lines 23–67), as a function of the outcome of
`pd.read_excel(file_path, sheet_name=None)`: named-sheet binding, positional
fallback, single-sheet fallback with an empty secondary table, failure on
zero sheets, and reset-to-absent only when parsing raised. -/
def loadExcel (parseResult : Except String (List (String × Table))) (s : State) : Bool × State :=
  match parseResult with
  | Except.error _ => (false, { s with summary_data := none, task_status_data := none })
  | Except.ok sheets =>
    match lookupA "Summary" sheets, lookupA "TaskStatus" sheets with
    | some su, some ts => (true, { s with summary_data := some su, task_status_data := some ts })
    | _, _ =>
      if sheets.length ≥ 2 then
        (true, { s with summary_data := some ((sheets.getD 0 ("", emptyTable)).2),
                        task_status_data := some ((sheets.getD 1 ("", emptyTable)).2) })
      else if sheets.length = 1 then
        (true, { s with summary_data := some ((sheets.getD 0 ("", emptyTable)).2),
                        task_status_data := some emptyTable })
      else (false, s)

/-- Example primary table: department column plus a bound month triple. -/
def exSummary : Table :=
  ⟨["部门", "1月", "a", "b"], [[Cell.str "A", Cell.num 5, Cell.num 2, Cell.num 1]]⟩

/-- Example secondary table whose located rate column holds unparsable text
without a percent marker. -/
def exTaskBad : Table :=
  ⟨["部门", "3月计划任务完成率"], [[Cell.str "A", Cell.str "abc"]]⟩

/-- Example secondary table with no completion-rate data anywhere. -/
def exTaskNoRate : Table :=
  ⟨["部门", "x"], [[Cell.str "A", Cell.missing]]⟩

/-- Example secondary table whose rate value is the out-of-range numeric
150. -/
def exTaskBig : Table :=
  ⟨["部门", "3月计划任务完成率"], [[Cell.str "A", Cell.num 150]]⟩

/-- Example primary table whose month header has fewer than 2 columns to its
right. -/
def exSummaryShort : Table :=
  ⟨["部门", "1月"], [[Cell.str "A", Cell.num 5]]⟩

/-- Example primary table with a non-numeric metric cell. -/
def exSummaryStr : Table :=
  ⟨["部门", "1月", "a", "b"], [[Cell.str "A", Cell.str "x", Cell.num 2, Cell.num 1]]⟩

/-- Loaded state whose secondary table aborts completion-rate extraction. -/
def exStateBad : State :=
  { initState with summary_data := some exSummary, task_status_data := some exTaskBad }

/-- Loaded state whose secondary table is nonempty but yields no rates. -/
def exStateNoRate : State :=
  { initState with summary_data := some exSummary, task_status_data := some exTaskNoRate }

/-- Loaded state whose secondary table yields a rate of 150. -/
def exStateBig : State :=
  { initState with summary_data := some exSummary, task_status_data := some exTaskBig }

/-- Loaded state with the short-header primary table. -/
def exStateShort : State :=
  { initState with summary_data := some exSummaryShort }

/-- Loaded state with the string-metric primary table. -/
def exStateStrCell : State :=
  { initState with summary_data := some exSummaryStr }

/-- A raw cell whose normalization (when it yields a number at all) lands in
`[0, 100]`: NaN is skipped anyway; a numeric must already be in `[0, 100]`;
percent-marked text must parse into `[0, 100]`. -/
def cellInRange : Cell → Prop
  | Cell.missing => True
  | Cell.num q => 0 ≤ q ∧ q ≤ 100
  | Cell.str s => ∀ q : ℚ, containsSub s "%" = true → parseNum (stripPct s) = some q →
      0 ≤ q ∧ q ≤ 100

/-- Mask one department's completion entries: values at months outside
`months` are replaced by the NaN sentinel, keys are untouched. -/
def maskE (months : List String) (e : List (String × Option ℚ)) : List (String × Option ℚ) :=
  e.map (fun p => (p.1, if months.contains p.1 then p.2 else none))

/-- Mask a CompletionRate structure: forget every value stored at a month
that is not among the known (primary-table) months. -/
def maskCD (months : List String) (cd : CD) : CD :=
  cd.map (fun p => (p.1, maskE months p.2))

/-- The monthly-stats dict after `_calculate_monthly_stats` runs over the
structures rebuilt from table `t`, starting from the previous dict. -/
def msAfter (t : Table) (ms0 : MS) : MS :=
  if (pdOf t).isEmpty then ms0
  else foldUpd (monthsOf t) (statFor (depsOf t) (pdOf t)) ms0

attribute [ext] State

theorem lookupA_updateA_self {α β : Type} [DecidableEq α] (k : α) (v : β)
    (l : List (α × β)) : lookupA k (updateA k v l) = some v := by
  induction l with
  | nil => simp [updateA, lookupA]
  | cons p rest ih =>
    obtain ⟨k1, v1⟩ := p
    by_cases h : k1 = k
    · simp [updateA, lookupA, h]
    · simp [updateA, lookupA, h, ih]

theorem lookupA_updateA_ne {α β : Type} [DecidableEq α] {k k' : α} (v : β)
    (l : List (α × β)) (h : k' ≠ k) : lookupA k (updateA k' v l) = lookupA k l := by
  induction l with
  | nil => simp [updateA, lookupA, h]
  | cons p rest ih =>
    obtain ⟨k1, v1⟩ := p
    by_cases h1 : k1 = k'
    · subst h1
      simp [updateA, lookupA, h]
    · simp [updateA, h1]
      by_cases h2 : k1 = k
      · simp [lookupA, h2]
      · simp [lookupA, h2, ih]

theorem updateA_self {α β : Type} [DecidableEq α] {k : α} {v : β}
    {l : List (α × β)} (h : lookupA k l = some v) : updateA k v l = l := by
  induction l with
  | nil => simp [lookupA] at h
  | cons p rest ih =>
    obtain ⟨k1, v1⟩ := p
    by_cases h1 : k1 = k
    · subst h1
      simp [lookupA] at h
      simp [updateA, h]
    · simp [lookupA, h1] at h
      simp [updateA, h1, ih h]

theorem lookupA_foldUpd_not_mem {α β : Type} [DecidableEq α] {k : α}
    (keys : List α) (f : α → β) (init : List (α × β)) (h : k ∉ keys) :
    lookupA k (foldUpd keys f init) = lookupA k init := by
  induction keys generalizing init with
  | nil => simp [foldUpd]
  | cons a rest ih =>
    have ha : a ≠ k := fun hak => h (hak ▸ List.mem_cons_self a rest)
    have hr : k ∉ rest := fun hk => h (List.mem_cons_of_mem a hk)
    show lookupA k (foldUpd rest f (updateA a (f a) init)) = lookupA k init
    rw [ih _ hr, lookupA_updateA_ne _ _ ha]

theorem lookupA_foldUpd_mem {α β : Type} [DecidableEq α] {k : α}
    (keys : List α) (f : α → β) (init : List (α × β)) (h : k ∈ keys) :
    lookupA k (foldUpd keys f init) = some (f k) := by
  induction keys generalizing init with
  | nil => simp at h
  | cons a rest ih =>
    simp only [foldUpd, List.foldl_cons]
    by_cases hk : k ∈ rest
    · exact ih _ hk
    · have hak : a = k := by
        rcases List.mem_cons.mp h with h1 | h2
        · exact h1.symm
        · exact absurd h2 hk
      subst hak
      rw [show List.foldl (fun acc k => updateA k (f k) acc) (updateA a (f a) init) rest =
            foldUpd rest f (updateA a (f a) init) from rfl,
          lookupA_foldUpd_not_mem rest f _ hk, lookupA_updateA_self]

theorem foldUpd_fixed {α β : Type} [DecidableEq α] (keys : List α) (f : α → β)
    (l : List (α × β)) (h : ∀ k ∈ keys, lookupA k l = some (f k)) :
    foldUpd keys f l = l := by
  induction keys with
  | nil => rfl
  | cons a rest ih =>
    simp only [foldUpd, List.foldl_cons]
    rw [updateA_self (h a (List.mem_cons_self a rest))]
    exact ih (fun k hk => h k (List.mem_cons_of_mem a hk))

theorem foldUpd_idem {α β : Type} [DecidableEq α] (keys : List α) (f : α → β)
    (init : List (α × β)) :
    foldUpd keys f (foldUpd keys f init) = foldUpd keys f init :=
  foldUpd_fixed keys f _ (fun _ hk => lookupA_foldUpd_mem keys f init hk)

theorem lookupA_updateA_ne_none {α β : Type} [DecidableEq α] {d k : α} {v : β}
    {l : List (α × β)} (h : lookupA d (updateA k v l) ≠ none) :
    d = k ∨ lookupA d l ≠ none := by
  by_cases hdk : d = k
  · exact Or.inl hdk
  · right
    rwa [lookupA_updateA_ne v l (fun hk => hdk hk.symm)] at h

theorem foldl_keys {α β γ : Type} [DecidableEq α] (step : List (α × β) → γ → List (α × β))
    (key : γ → α)
    (hstep : ∀ acc a d, lookupA d (step acc a) ≠ none → d = key a ∨ lookupA d acc ≠ none) :
    ∀ (l : List γ) (acc : List (α × β)) (d : α), lookupA d (l.foldl step acc) ≠ none →
      (∃ a ∈ l, d = key a) ∨ lookupA d acc ≠ none := by
  intro l
  induction l with
  | nil => intro acc d h; exact Or.inr h
  | cons a rest ih =>
    intro acc d h
    rcases ih (step acc a) d h with h1 | h2
    · rcases h1 with ⟨b, hb, hd⟩
      exact Or.inl ⟨b, List.mem_cons_of_mem a hb, hd⟩
    · rcases hstep acc a d h2 with h3 | h4
      · exact Or.inl ⟨a, List.mem_cons_self a rest, h3⟩
      · exact Or.inr h4

theorem mem_dedupAux {x : Cell} : ∀ {l acc : List Cell}, x ∈ dedupAux l acc →
    x ∈ l ∨ x ∈ acc := by
  intro l
  induction l with
  | nil =>
    intro acc h
    simp only [dedupAux, List.mem_reverse] at h
    exact Or.inr h
  | cons c rest ih =>
    intro acc h
    simp only [dedupAux] at h
    split at h
    · rcases ih h with h1 | h2
      · exact Or.inl (List.mem_cons_of_mem c h1)
      · exact Or.inr h2
    · rcases ih h with h1 | h2
      · exact Or.inl (List.mem_cons_of_mem c h1)
      · rcases List.mem_cons.mp h2 with h3 | h4
        · exact Or.inl (h3 ▸ List.mem_cons_self c rest)
        · exact Or.inr h4

theorem mem_depsOf {t : Table} {d : Cell} (h : d ∈ depsOf t) :
    ∃ r ∈ t.rows, getCell r (deptColIdx t) = d := by
  unfold depsOf dedupFirst at h
  rcases mem_dedupAux h with h1 | h2
  · rcases List.mem_filter.mp h1 with ⟨h3, _⟩
    rcases List.mem_map.mp h3 with ⟨r, hr, hrd⟩
    exact ⟨r, hr, hrd⟩
  · simp at h2

theorem pdOf_keys_sub {t : Table} {d : Cell} (h : lookupA d (pdOf t) ≠ none) :
    d ∈ depsOf t := by
  simp only [pdOf] at h
  have hstep : ∀ (acc : PD) (a : Cell) (d' : Cell),
      lookupA d' ((fun pd dept =>
        let pd := updateA dept [] pd
        let dept_rows := t.rows.filter (fun r => decide (getCell r (deptColIdx t) = dept))
        if dept_rows.isEmpty then pd
        else
          let entry := (monthsNums t).foldl (fun entry mnum =>
            match lookupA mnum (buildMonthMapping t.headers) with
            | none => entry
            | some metric_cols =>
              let mentry := metricsList.enum.foldl (fun me p =>
                if p.1 < metric_cols.length then
                  updateA p.2 (readMetricVal t.headers dept_rows (metric_cols.getD p.1 "")) me
                else updateA p.2 (Cell.num 0) me) []
              updateA (monthName mnum) mentry entry) []
          updateA dept entry pd) acc a) ≠ none → d' = a ∨ lookupA d' acc ≠ none := by
    intro acc a d' hh
    dsimp only at hh
    split at hh
    · exact lookupA_updateA_ne_none hh
    · rcases lookupA_updateA_ne_none hh with h1 | h2
      · exact Or.inl h1
      · exact lookupA_updateA_ne_none h2
  rcases foldl_keys _ id hstep (depsOf t) [] d h with h1 | h2
  · rcases h1 with ⟨a, ha, rfl⟩
    exact ha
  · simp [lookupA] at h2

/-- Claim C8: when the primary table is processed, a department value with
zero matching rows in the primary table never appears as a key in
ProcessedMetrics — not even with an empty entry. -/
theorem c8_theorem (s : State) (t : Table) (d : Cell)
    (hs : s.summary_data = some t) (he : isEmptyT t = false)
    (hf : t.rows.filter (fun r => decide (getCell r (deptColIdx t) = d)) = []) :
    lookupA d (processSummary s).processed_data = none := by
  have hpd : (processSummary s).processed_data = pdOf t := by
    simp only [processSummary, hs, he, Bool.false_eq_true, if_false]
    unfold calcMonthlyStats
    split <;> rfl
  rw [hpd]
  by_contra hnone
  rcases mem_depsOf (pdOf_keys_sub hnone) with ⟨r, hr, hrd⟩
  have : r ∈ t.rows.filter (fun r => decide (getCell r (deptColIdx t) = d)) :=
    List.mem_filter.mpr ⟨hr, by simp [hrd]⟩
  rw [hf] at this
  simp at this

/-- Witness for C8 at a concrete loaded state and an absent department. -/
theorem c8_witness :
    lookupA (Cell.str "Z") (processSummary exStateNoRate).processed_data = none :=
  c8_theorem exStateNoRate exSummary (Cell.str "Z") rfl (by decide) (by decide)

/-- Claim C1, counterexample: on a loaded state whose secondary table holds
unparsable non-percent text in the located rate column, `process()` returns
failure, yet the object is not reset to Empty — the ProcessedMetrics built
from the primary table remains observable through
`get_department_monthly_metrics`. -/
theorem c1_counterexample :
    loadExcel (Except.ok [("Summary", exSummary), ("TaskStatus", exTaskBad)]) initState =
      (true, exStateBad) ∧
    (processData 2026 exStateBad).1 = false ∧
    (getDeptMonthlyMetrics (processData 2026 exStateBad).2).2.2 ≠ [] := by
  decide

/-- Claim C2, counterexample: a successfully processed state whose nonempty
secondary table yielded no completion value at all leaves CompletionRate as a
NaN-filled structure (not empty), and `get_top_departments_completion(4)`
returns a single all-sentinel series rather than exactly 4 constant-50
series. -/
theorem c2_counterexample :
    loadExcel (Except.ok [("Summary", exSummary), ("TaskStatus", exTaskNoRate)]) initState =
      (true, exStateNoRate) ∧
    (processData 2026 exStateNoRate).1 = true ∧
    (processData 2026 exStateNoRate).2.completion_data ≠ [] ∧
    getRates (processData 2026 exStateNoRate).2 4 =
      (["1月"], [[none]], [Cell.str "A"]) := by
  decide

/-- Claim C3, counterexample: a cell value that cannot be converted to a
percentage but carries no percent marker (`"abc"`) is not dropped — it aborts
the whole `process()` call, which returns failure. -/
theorem c3_counterexample :
    (processData 2026 exStateBad).1 = false := by
  decide

/-- Claim C4, counterexample: the header `1月` matches the month pattern but
has fewer than 2 columns to its right; the month is silently dropped from the
discovered month list instead of being kept with zero-defaulted metrics. -/
theorem c4_counterexample :
    monthMatch "1月" = some 1 ∧
    (processData 2026 exStateShort).1 = true ∧
    (processData 2026 exStateShort).2.months = [] := by
  decide

/-- Claim C5, counterexample: a non-numeric metric cell (`"x"`) is stored
verbatim in ProcessedMetrics, not as 0. -/
theorem c5_counterexample :
    ((lookupA (Cell.str "A") (processData 2026 exStateStrCell).2.processed_data).bind
      (fun dm => (lookupA "1月" dm).bind (fun mm => lookupA "完成任务数" mm))) =
      some (Cell.str "x") ∧ Cell.str "x" ≠ Cell.num 0 := by
  decide

/-- Claim C6, counterexample: a raw numeric rate of 150 (greater than 1, so
used as-is) is stored unclamped, so a present CompletionRate value lies
outside `[0, 100]`. -/
theorem c6_counterexample :
    (processData 2026 exStateBig).1 = true ∧
    ((lookupA (Cell.str "A") (processData 2026 exStateBig).2.completion_data).bind
      (fun e => lookupA "3月" e)) = some (some 150) ∧ ¬ ((150 : ℚ) ≤ 100) := by
  refine ⟨by decide, ?_, by norm_num⟩
  have h1 : ((lookupA (Cell.str "A") (processData 2026 exStateBig).2.completion_data).bind
      (fun e => lookupA "3月" e)) =
      some (some (listAvg [listAvg (List.map cellQ (collectValid exTaskBig.rows 1))])) := rfl
  have h3 : collectValid exTaskBig.rows 1 = [Cell.num 150] := by decide
  have h2 : listAvg [listAvg (List.map cellQ (collectValid exTaskBig.rows 1))] = 150 := by
    rw [h3]; norm_num [cellQ, listAvg]
  rw [h1, h2]

/-- Claim C7, counterexample: when parsing yields zero sheets, `load`
returns failure but the previously loaded primary table is retained — the
tables are not reset to absent. -/
theorem c7_counterexample :
    (loadExcel (Except.ok []) exStateNoRate).1 = false ∧
    (loadExcel (Except.ok []) exStateNoRate).2.summary_data ≠ none := by
  decide

/-- Claim C7, amended: reset-to-absent happens exactly in the
exception path (unreadable file / parse error); a parse that yields zero
sheets makes `load` return failure while leaving the previously loaded
tables untouched; in both cases only a boolean is returned. -/
theorem c7_amended (s : State) (e : String) :
    (loadExcel (Except.error e) s).1 = false ∧
    (loadExcel (Except.error e) s).2.summary_data = none ∧
    (loadExcel (Except.error e) s).2.task_status_data = none ∧
    (loadExcel (Except.ok []) s).1 = false ∧
    (loadExcel (Except.ok []) s).2 = s :=
  ⟨rfl, rfl, rfl, rfl, rfl⟩

/-- Claim C2, amended: the exactly-`n`-series constant-50 fallback of
`get_top_departments_completion` is produced precisely when the
CompletionRate structure is the empty mapping (the extractor never ran, or
there are no departments); a run of the extractor that finds no data stores
a department-keyed all-sentinel structure instead, which takes the normal
path. -/
theorem c2_amended (s : State) (n : ℕ) (h : s.completion_data = []) :
    getRates s n =
      (s.months, List.replicate n (List.replicate s.months.length (some 50)),
        s.departments.take n) := by
  simp [getRates, h]

/-- Witness for C2 amended at the freshly initialized state. -/
theorem c2_amended_witness :
    getRates initState 4 = ([], List.replicate 4 (List.replicate 0 (some 50)), []) :=
  c2_amended initState 4 rfl

/-- Claim C1, amended: when `process()` returns failure it performs no reset:
the object is left either unchanged (no primary table) or exactly in the
state produced by the primary-table aggregation (secondary-table error), so
partially populated primary structures stay observable. -/
theorem c1_amended (y : Int) (s : State) (h : (processData y s).1 = false) :
    (processData y s).2 = s ∨ (processData y s).2 = processSummary s := by
  cases hs : s.summary_data with
  | none => simp [processData, hs]
  | some t =>
    simp only [processData, hs] at h ⊢
    cases htask : (processSummary s).task_status_data with
    | none => simp [htask] at h
    | some t2 =>
      simp only [htask] at h ⊢
      by_cases hemp : isEmptyT t2 = true
      · simp [hemp] at h
      · simp only [hemp, Bool.false_eq_true, if_false] at h ⊢
        cases hres : processTaskStatus (processSummary s) with
        | ok s2 => simp [hres] at h
        | error e => simp [hres]

/-- Witness for C1 amended at the aborting concrete state. -/
theorem c1_amended_witness :
    (processData 2026 exStateBad).2 = exStateBad ∨
    (processData 2026 exStateBad).2 = processSummary exStateBad :=
  c1_amended 2026 exStateBad (by decide)

/-- Claim C3, amended: a percent-marked text value whose numeric part does
not parse is dropped from the collected values — exactly that one value, the
rest of the collection is unchanged; (a non-numeric text value without a
percent marker is instead collected raw and later aborts the whole
`process()` call). -/
theorem c3_amended (rs1 rs2 : List (List Cell)) (r : List Cell) (i : ℕ) (t : String)
    (hc : getCell r i = Cell.str t) (hp : containsSub t "%" = true)
    (hn : parseNum (stripPct t) = none) :
    collectValid (rs1 ++ r :: rs2) i = collectValid (rs1 ++ rs2) i := by
  have hdrop : normCell (getCell r i) = none := by
    rw [hc]
    simp [normCell, hp, hn]
  unfold collectValid
  simp [List.filterMap_append, List.filterMap_cons, hdrop]

/-- Witness for C3 amended on a concrete unparsable percent-marked value. -/
theorem c3_amended_witness :
    collectValid [[Cell.str "abc%"]] 0 = collectValid [] 0 :=
  c3_amended [] [] [Cell.str "abc%"] 0 "abc%" rfl (by decide) (by decide)

/-- Claim C4, amended: a month number whose every pattern-matching header has
fewer than 2 columns remaining to its right is not bound at all — it is
absent from the month→triple mapping, hence dropped from the discovered
month list (no error is raised, the table is still processed). -/
theorem c4_amended (hs : List String) (m : ℕ)
    (h : ∀ col ∈ hs, monthMatch col = some m → ¬ (hs.indexOf col + 2 < hs.length)) :
    lookupA m (buildMonthMapping hs) = none := by
  have H : ∀ (l : List String) (acc : List (ℕ × List String)),
      (∀ col ∈ l, monthMatch col = some m → ¬ (hs.indexOf col + 2 < hs.length)) →
      lookupA m (l.foldl (fun acc col =>
        match monthMatch col with
        | none => acc
        | some mm =>
          if hs.indexOf col + 2 < hs.length then
            updateA mm [hs.getD (hs.indexOf col) "", hs.getD (hs.indexOf col + 1) "",
              hs.getD (hs.indexOf col + 2) ""] acc
          else acc) acc) = lookupA m acc := by
    intro l
    induction l with
    | nil => intro acc _; rfl
    | cons c rest ih =>
      intro acc hl
      have hrest : ∀ col ∈ rest, monthMatch col = some m →
          ¬ (hs.indexOf col + 2 < hs.length) :=
        fun col hcol => hl col (List.mem_cons_of_mem c hcol)
      rw [List.foldl_cons]
      cases hm : monthMatch c with
      | none => simp only [hm]; exact ih _ hrest
      | some mm =>
        simp only [hm]
        by_cases hroom : hs.indexOf c + 2 < hs.length
        · have hmm : mm ≠ m := fun he =>
            (hl c (List.mem_cons_self c rest) (he ▸ hm)) hroom
          rw [if_pos hroom, ih _ hrest, lookupA_updateA_ne _ _ hmm]
        · rw [if_neg hroom]
          exact ih _ hrest
  exact (H hs [] h).trans rfl

/-- Witness for C4 amended on the short header list. -/
theorem c4_amended_witness :
    lookupA 1 (buildMonthMapping ["部门", "1月"]) = none :=
  c4_amended ["部门", "1月"] 1 (by decide)

/-- Claim C5, amended: a metric value is read from the first matching row
only (further rows are ignored); a missing/NaN cell is stored as 0; a
non-missing cell — numeric or not — is stored verbatim (non-numerics are
only coerced to 0 later, in MonthlyStats aggregation). -/
theorem c5_amended (hs : List String) (col : String) (r : List Cell)
    (rows : List (List Cell)) :
    readMetricVal hs (r :: rows) col = readMetricVal hs [r] col ∧
    (hs.contains col = true → getCell r (hs.indexOf col) = Cell.missing →
      readMetricVal hs (r :: rows) col = Cell.num 0) ∧
    (hs.contains col = true → getCell r (hs.indexOf col) ≠ Cell.missing →
      readMetricVal hs (r :: rows) col = getCell r (hs.indexOf col)) := by
  refine ⟨rfl, ?_, ?_⟩
  · intro hcon hm
    unfold readMetricVal
    rw [if_pos hcon]
    show (if getCell r (hs.indexOf col) = Cell.missing then Cell.num 0
          else getCell r (hs.indexOf col)) = Cell.num 0
    rw [if_pos hm]
  · intro hcon hm
    unfold readMetricVal
    rw [if_pos hcon]
    show (if getCell r (hs.indexOf col) = Cell.missing then Cell.num 0
          else getCell r (hs.indexOf col)) = getCell r (hs.indexOf col)
    rw [if_neg hm]

/-- Witness for C5 amended on the concrete primary table. -/
theorem c5_amended_witness :
    readMetricVal ["部门", "1月", "a", "b"]
      [[Cell.str "A", Cell.num 5, Cell.num 2, Cell.num 1]] "1月" = Cell.num 5 :=
  (c5_amended ["部门", "1月", "a", "b"] "1月"
    [Cell.str "A", Cell.num 5, Cell.num 2, Cell.num 1] []).2.2 (by decide) (by decide)

/-- Claim C6, amended: normalization does not clamp, so a present
CompletionRate value is only guaranteed to lie in `[0, 100]` when the raw
inputs land there: a per-column mean over rows whose cells normalize into
`[0, 100]` lies in `[0, 100]`, and the final re-averaging (line 384)
preserves `[0, 100]`; out-of-range raw values (e.g. a numeric 150) produce
out-of-range rates. -/
theorem c6_amended :
    (∀ (rows : List (List Cell)) (i : ℕ) (q : ℚ),
      (∀ r ∈ rows, cellInRange (getCell r i)) →
      avgValid (collectValid rows i) = Except.ok (some q) → 0 ≤ q ∧ q ≤ 100) ∧
    (∀ vs : List ℚ, (∀ v ∈ vs, 0 ≤ v ∧ v ≤ 100) → vs ≠ [] →
      0 ≤ listAvg vs ∧ listAvg vs ≤ 100) := by
  have avg_bounds : ∀ vs : List ℚ, (∀ v ∈ vs, 0 ≤ v ∧ v ≤ 100) → vs ≠ [] →
      0 ≤ listAvg vs ∧ listAvg vs ≤ 100 := by
    intro vs hv hne
    have hlen : 0 < (vs.length : ℚ) := by
      have h0 : 0 < vs.length := List.length_pos.mpr hne
      exact_mod_cast h0
    constructor
    · exact div_nonneg (List.sum_nonneg (fun v hvm => (hv v hvm).1)) (le_of_lt hlen)
    · rw [listAvg, div_le_iff₀ hlen]
      calc vs.sum ≤ vs.length • (100 : ℚ) :=
            List.sum_le_card_nsmul vs 100 (fun v hvm => (hv v hvm).2)
        _ = 100 * vs.length := by rw [nsmul_eq_mul]; ring
  refine ⟨?_, avg_bounds⟩
  intro rows i q hR havg
  unfold avgValid at havg
  by_cases h1 : (collectValid rows i).isEmpty = true
  · rw [if_pos h1] at havg
    cases havg
  · rw [if_neg h1] at havg
    by_cases h2 : (collectValid rows i).any isStrCell = true
    · rw [if_pos h2] at havg
      cases havg
    · rw [if_neg h2] at havg
      have hq : q = listAvg ((collectValid rows i).map cellQ) := by
        have h3 := Except.ok.inj havg
        exact (Option.some.inj h3).symm
      subst hq
      apply avg_bounds
      · intro v hv
        rcases List.mem_map.mp hv with ⟨c, hc, rfl⟩
        rcases List.mem_filterMap.mp hc with ⟨r, hr, hnc⟩
        have hcir := hR r hr
        cases hcell : getCell r i with
        | missing =>
          rw [hcell] at hnc
          simp [normCell] at hnc
        | num v0 =>
          rw [hcell] at hnc hcir
          have hb : 0 ≤ v0 ∧ v0 ≤ 100 := hcir
          simp only [normCell] at hnc
          by_cases hle : v0 ≤ 1
          · rw [if_pos hle] at hnc
            have h4 := Option.some.inj hnc
            subst h4
            constructor
            · show 0 ≤ v0 * 100
              nlinarith [hb.1]
            · show v0 * 100 ≤ 100
              nlinarith [hb.1, hle]
          · rw [if_neg hle] at hnc
            have h4 := Option.some.inj hnc
            subst h4
            exact hb
        | str s0 =>
          rw [hcell] at hnc hcir
          simp only [normCell] at hnc
          by_cases hpct : containsSub s0 "%" = true
          · rw [if_pos hpct] at hnc
            cases hp : parseNum (stripPct s0) with
            | none =>
              rw [hp] at hnc
              cases hnc
            | some q0 =>
              rw [hp] at hnc
              have h4 := Option.some.inj hnc
              subst h4
              exact hcir q0 hpct hp
          · rw [if_neg hpct] at hnc
            have h4 := Option.some.inj hnc
            exfalso
            apply h2
            rw [List.any_eq_true]
            refine ⟨c, hc, ?_⟩
            rw [← h4]
            rfl
      · intro hmap
        apply h1
        rw [List.map_eq_nil_iff] at hmap
        rw [hmap]
        rfl

/-- Witness for C6 amended on a one-value column and a two-value list. -/
theorem c6_amended_witness :
    (0 ≤ listAvg (List.map cellQ (collectValid [[Cell.num 80]] 0)) ∧
      listAvg (List.map cellQ (collectValid [[Cell.num 80]] 0)) ≤ 100) ∧
    (0 ≤ listAvg [(80 : ℚ), 90] ∧ listAvg [(80 : ℚ), 90] ≤ 100) :=
  ⟨c6_amended.1 [[Cell.num 80]] 0 (listAvg (List.map cellQ (collectValid [[Cell.num 80]] 0)))
      (by
        intro r hr
        rcases List.mem_singleton.mp hr with rfl
        exact ⟨by norm_num, by norm_num⟩)
      rfl,
    c6_amended.2 [(80 : ℚ), 90]
      (by
        intro v hv
        rcases List.mem_cons.mp hv with rfl | hv2
        · exact ⟨by norm_num, by norm_num⟩
        · rcases List.mem_singleton.mp hv2 with rfl
          exact ⟨by norm_num, by norm_num⟩)
      (by simp)⟩

theorem lookupA_maskCD (ms : List String) (cd : CD) (d : Cell) :
    lookupA d (maskCD ms cd) = (lookupA d cd).map (maskE ms) := by
  induction cd with
  | nil => rfl
  | cons p rest ih =>
    obtain ⟨d1, e1⟩ := p
    by_cases h : d1 = d
    · simp [maskCD, lookupA, h]
    · simp only [maskCD, List.map_cons, lookupA, h, if_false]
      exact ih

theorem lookupA_maskE (ms : List String) (e : List (String × Option ℚ)) (m : String) :
    lookupA m (maskE ms e) =
      (lookupA m e).map (fun v => if ms.contains m then v else none) := by
  induction e with
  | nil => rfl
  | cons p rest ih =>
    obtain ⟨m1, v1⟩ := p
    by_cases h : m1 = m
    · subst h
      simp [maskE, lookupA]
    · simp only [maskE, List.map_cons, lookupA, h, if_false]
      exact ih

theorem rate_maskCD (s : State) (dept : Cell) (m : String) (hm : m ∈ s.months) :
    ((lookupA dept (maskCD s.months s.completion_data)).bind (fun e => lookupA m e)).join =
      ((lookupA dept s.completion_data).bind (fun e => lookupA m e)).join := by
  rw [lookupA_maskCD]
  cases h : lookupA dept s.completion_data with
  | none => rfl
  | some e =>
    simp [lookupA_maskE, hm]

/-- Claim C10: `get_top_departments_completion` depends only on the
completion rates stored at the months discovered in the primary table — a
rate at any other month is never included in a department's ranking mean and
never appears in the returned series, so masking all such rates to the
sentinel leaves the output unchanged. -/
theorem c10_theorem (s : State) (n : ℕ) :
    getRates { s with completion_data := maskCD s.months s.completion_data } n =
      getRates s n := by
  have hdar : deptAvgRates { s with completion_data := maskCD s.months s.completion_data } =
      deptAvgRates s := by
    unfold deptAvgRates
    dsimp only
    apply List.foldl_ext
    intro acc dept _
    rw [lookupA_maskCD]
    cases h : lookupA dept s.completion_data with
    | none => rfl
    | some e =>
      dsimp only [Option.map_some']
      have hval : (s.months.map (fun m => (lookupA m (maskE s.months e)).join)) =
          (s.months.map (fun m => (lookupA m e).join)) := by
        apply List.map_congr_left
        intro m hm
        simp [lookupA_maskE, hm]
      rw [hval]
  have hser : ∀ dept : Cell,
      (s.months.map (fun m =>
        ((lookupA dept (maskCD s.months s.completion_data)).bind
          (fun e => lookupA m e)).join)) =
      (s.months.map (fun m =>
        ((lookupA dept s.completion_data).bind (fun e => lookupA m e)).join)) := by
    intro dept
    apply List.map_congr_left
    intro m hm
    exact rate_maskCD s dept m hm
  have hemp : (maskCD s.months s.completion_data).isEmpty = s.completion_data.isEmpty := by
    unfold maskCD
    cases s.completion_data <;> rfl
  unfold getRates
  dsimp only
  rw [hemp, hdar]
  by_cases he : s.completion_data.isEmpty = true
  · rw [if_pos he, if_pos he]
  · rw [if_neg he, if_neg he]
    have hmap : ∀ tops : List Cell,
        tops.map (fun dept => s.months.map (fun m =>
          ((lookupA dept (maskCD s.months s.completion_data)).bind
            (fun e => lookupA m e)).join)) =
        tops.map (fun dept => s.months.map (fun m =>
          ((lookupA dept s.completion_data).bind (fun e => lookupA m e)).join)) :=
      fun tops => List.map_congr_left (fun dept _ => hser dept)
    rw [hmap]

@[simp] theorem yearUpd_summary (y : Int) (s : State) :
    (yearUpd y s).summary_data = s.summary_data := by
  unfold yearUpd; split <;> rfl

@[simp] theorem yearUpd_task (y : Int) (s : State) :
    (yearUpd y s).task_status_data = s.task_status_data := by
  unfold yearUpd; split <;> rfl

@[simp] theorem yearUpd_departments (y : Int) (s : State) :
    (yearUpd y s).departments = s.departments := by
  unfold yearUpd; split <;> rfl

@[simp] theorem yearUpd_months (y : Int) (s : State) :
    (yearUpd y s).months = s.months := by
  unfold yearUpd; split <;> rfl

@[simp] theorem yearUpd_monthly (y : Int) (s : State) :
    (yearUpd y s).monthly_stats = s.monthly_stats := by
  unfold yearUpd; split <;> rfl

@[simp] theorem yearUpd_processed (y : Int) (s : State) :
    (yearUpd y s).processed_data = s.processed_data := by
  unfold yearUpd; split <;> rfl

@[simp] theorem yearUpd_completion (y : Int) (s : State) :
    (yearUpd y s).completion_data = s.completion_data := by
  unfold yearUpd; split <;> rfl

theorem ps_none {s : State} (hs : s.summary_data = none) : processSummary s = s := by
  simp [processSummary, hs]

theorem ps_empty {s : State} (t : Table) (hs : s.summary_data = some t)
    (he : isEmptyT t = true) : processSummary s = s := by
  simp [processSummary, hs, he]

theorem ps_some {s : State} (t : Table) (hs : s.summary_data = some t)
    (he : isEmptyT t = false) :
    processSummary s =
      { s with departments := depsOf t, months := monthsOf t,
               processed_data := pdOf t,
               monthly_stats := msAfter t s.monthly_stats } := by
  simp only [processSummary, hs, he, Bool.false_eq_true, if_false]
  unfold calcMonthlyStats msAfter
  dsimp only
  by_cases hp : (pdOf t).isEmpty = true
  · simp only [hp, if_true]
  · simp only [hp, Bool.false_eq_true, if_false]

theorem msAfter_idem (t : Table) (ms0 : MS) :
    msAfter t (msAfter t ms0) = msAfter t ms0 := by
  unfold msAfter
  by_cases hp : (pdOf t).isEmpty = true
  · simp only [hp, if_true]
  · simp only [hp, Bool.false_eq_true, if_false]
    exact foldUpd_idem _ _ _

theorem bool_eq_false {b : Bool} (h : ¬ b = true) : b = false := by
  cases b
  · rfl
  · exact absurd rfl h

/-- Case-normal form of `process_data`. -/
theorem processData_eq (y : Int) (s : State) :
    processData y s =
      match s.summary_data with
      | none => (false, s)
      | some _ =>
        match (processSummary s).task_status_data with
        | none => (true, yearUpd y (processSummary s))
        | some t2 =>
          if isEmptyT t2 then (true, yearUpd y (processSummary s))
          else
            match cdCompute t2 (processSummary s).departments with
            | Except.error _ => (false, processSummary s)
            | Except.ok cd =>
              (true, yearUpd y { processSummary s with completion_data := cd }) := by
  cases hsum : s.summary_data with
  | none => simp [processData, hsum]
  | some t =>
    simp only [processData, hsum]
    cases htask : (processSummary s).task_status_data with
    | none => simp [processTaskStatus, htask]
    | some t2 =>
      simp only [htask]
      by_cases hte : isEmptyT t2 = true
      · simp [processTaskStatus, htask, hte]
      · simp only [processTaskStatus, htask, hte, Bool.false_eq_true, if_false]
        cases hcd : cdCompute t2 (processSummary s).departments with
        | error e => simp [hcd]
        | ok cd => simp [hcd]

/-- Claim C9: running `process()` twice on the same loaded data yields
identical ProcessedMetrics, MonthlyStats and CompletionRate structures after
the second run as after the first — the structures are rebuilt
deterministically from the unchanged tables, and the never-cleared
monthly-stats dict is overwritten key-by-key with the same values. -/
theorem c9_theorem (y : Int) (s : State) :
    (processData y (processData y s).2).2.processed_data =
      (processData y s).2.processed_data ∧
    (processData y (processData y s).2).2.monthly_stats =
      (processData y s).2.monthly_stats ∧
    (processData y (processData y s).2).2.completion_data =
      (processData y s).2.completion_data := by
  cases hs : s.summary_data with
  | none =>
    have h1 : processData y s = (false, s) := by simp [processData, hs]
    simp [h1]
  | some t =>
    by_cases he : isEmptyT t = true
    · -- empty primary table: processSummary is the identity
      have hPs : processSummary s = s := ps_empty t hs he
      cases htask : s.task_status_data with
      | none =>
        have h1 : processData y s = (true, yearUpd y s) := by
          simp [processData, hs, hPs, htask]
        have hs2 : (yearUpd y s).summary_data = some t := by simp [hs]
        have hPs2 : processSummary (yearUpd y s) = yearUpd y s := ps_empty t hs2 he
        have ht2 : (yearUpd y s).task_status_data = none := by simp [htask]
        have h2 : processData y (yearUpd y s) = (true, yearUpd y (yearUpd y s)) := by
          simp [processData, hs, hPs2, htask]
        rw [h1]
        dsimp only
        rw [h2]
        dsimp only
        exact ⟨by simp, by simp, by simp⟩
      | some t2 =>
        by_cases hte : isEmptyT t2 = true
        · have h1 : processData y s = (true, yearUpd y s) := by
            simp [processData, hs, hPs, htask, hte]
          have hs2 : (yearUpd y s).summary_data = some t := by simp [hs]
          have hPs2 : processSummary (yearUpd y s) = yearUpd y s := ps_empty t hs2 he
          have ht2 : (yearUpd y s).task_status_data = some t2 := by simp [htask]
          have h2 : processData y (yearUpd y s) = (true, yearUpd y (yearUpd y s)) := by
            simp [processData, hs, hPs2, htask, hte]
          rw [h1]
          dsimp only
          rw [h2]
          dsimp only
          exact ⟨by simp, by simp, by simp⟩
        · have hte2 : isEmptyT t2 = false := bool_eq_false hte
          cases hcd : cdCompute t2 s.departments with
          | error e =>
            have hpts : processTaskStatus s = Except.error e := by
              simp [processTaskStatus, htask, hte2, hcd]
            have h1 : processData y s = (false, s) := by
              simp [processData, hs, hPs, htask, hte2, hpts]
            simp [h1]
          | ok cd =>
            have hpts : processTaskStatus s =
                Except.ok { s with completion_data := cd } := by
              simp [processTaskStatus, htask, hte2, hcd]
            have h1 : processData y s =
                (true, yearUpd y { s with completion_data := cd }) := by
              simp [processData, hs, hPs, htask, hte2, hpts]
            have hs2 : (yearUpd y { s with completion_data := cd }).summary_data =
                some t := by simp [hs]
            have hPs2 : processSummary (yearUpd y { s with completion_data := cd }) =
                yearUpd y { s with completion_data := cd } := ps_empty t hs2 he
            have ht2 : (yearUpd y { s with completion_data := cd }).task_status_data =
                some t2 := by simp [htask]
            have hdep2 : (yearUpd y { s with completion_data := cd }).departments =
                s.departments := by simp
            have h2 : processData y (yearUpd y { s with completion_data := cd }) =
                (true, yearUpd y { yearUpd y { s with completion_data := cd } with
                                   completion_data := cd }) := by
              rw [processData_eq, hs2]
              dsimp only
              rw [hPs2, ht2]
              dsimp only
              simp only [hte2, Bool.false_eq_true, if_false]
              rw [hdep2, hcd]
            rw [h1]
            dsimp only
            rw [h2]
            dsimp only
            exact ⟨by simp, by simp, by simp⟩
    · -- nonempty primary table
      have he2 : isEmptyT t = false := bool_eq_false he
      have hPs := ps_some t hs he2
      have hRsum : (processSummary s).summary_data = some t := by rw [hPs]; exact hs
      have hRtask : (processSummary s).task_status_data = s.task_status_data := by
        rw [hPs]
      have hRdep : (processSummary s).departments = depsOf t := by rw [hPs]
      have hRms : (processSummary s).monthly_stats = msAfter t s.monthly_stats := by
        rw [hPs]
      have hRpd : (processSummary s).processed_data = pdOf t := by rw [hPs]
      have hRcomp : (processSummary s).completion_data = s.completion_data := by
        rw [hPs]
      cases htask : s.task_status_data with
      | none =>
        have hPt : (processSummary s).task_status_data = none := by
          rw [hRtask, htask]
        have h1 : processData y s = (true, yearUpd y (processSummary s)) := by
          simp [processData, hs, hPt]
        have hs2 : (yearUpd y (processSummary s)).summary_data = some t := by
          simp [hRsum]
        have hPs2 := ps_some t hs2 he2
        have hPt2 : (processSummary (yearUpd y (processSummary s))).task_status_data =
            none := by
          rw [hPs2]
          simp [hRtask, htask]
        have h2 : processData y (yearUpd y (processSummary s)) =
            (true, yearUpd y (processSummary (yearUpd y (processSummary s)))) := by
          simp [processData, hRsum, hPt2]
        rw [h1]
        dsimp only
        rw [h2]
        dsimp only
        refine ⟨?_, ?_, ?_⟩
        · simp [hPs2, hRpd]
        · simp [hPs2, hRms, msAfter_idem]
        · simp [hPs2, hRcomp]
      | some t2 =>
        have hPt : (processSummary s).task_status_data = some t2 := by
          rw [hRtask, htask]
        by_cases hte : isEmptyT t2 = true
        · have h1 : processData y s = (true, yearUpd y (processSummary s)) := by
            simp [processData, hs, hPt, hte]
          have hs2 : (yearUpd y (processSummary s)).summary_data = some t := by
            simp [hRsum]
          have hPs2 := ps_some t hs2 he2
          have hPt2 : (processSummary (yearUpd y (processSummary s))).task_status_data =
              some t2 := by
            rw [hPs2]
            simp [hRtask, htask]
          have h2 : processData y (yearUpd y (processSummary s)) =
              (true, yearUpd y (processSummary (yearUpd y (processSummary s)))) := by
            simp [processData, hRsum, hPt2, hte]
          rw [h1]
          dsimp only
          rw [h2]
          dsimp only
          refine ⟨?_, ?_, ?_⟩
          · simp [hPs2, hRpd]
          · simp [hPs2, hRms, msAfter_idem]
          · simp [hPs2, hRcomp]
        · have hte2 : isEmptyT t2 = false := bool_eq_false hte
          cases hcd : cdCompute t2 (depsOf t) with
          | error e =>
            have hpts : processTaskStatus (processSummary s) = Except.error e := by
              simp [processTaskStatus, hPt, hte2, hRdep, hcd]
            have h1 : processData y s = (false, processSummary s) := by
              simp [processData, hs, hPt, hte2, hpts]
            have hPs2 := ps_some t hRsum he2
            have hP2task :
                (processSummary (processSummary s)).task_status_data = some t2 := by
              rw [hPs2]
              simp [hRtask, htask]
            have hP2dep : (processSummary (processSummary s)).departments = depsOf t := by
              rw [hPs2]
            have hpts2 : processTaskStatus (processSummary (processSummary s)) =
                Except.error e := by
              simp [processTaskStatus, hP2task, hte2, hP2dep, hcd]
            have h2 : processData y (processSummary s) =
                (false, processSummary (processSummary s)) := by
              simp [processData, hRsum, hP2task, hte2, hpts2]
            rw [h1]
            dsimp only
            rw [h2]
            dsimp only
            refine ⟨?_, ?_, ?_⟩
            · simp [hPs2, hRpd]
            · simp [hPs2, hRms, msAfter_idem]
            · simp [hPs2, hRcomp]
          | ok cd =>
            have hpts : processTaskStatus (processSummary s) =
                Except.ok { processSummary s with completion_data := cd } := by
              simp [processTaskStatus, hPt, hte2, hRdep, hcd]
            have h1 : processData y s =
                (true, yearUpd y { processSummary s with completion_data := cd }) := by
              simp [processData, hs, hPt, hte2, hpts]
            have hs2 : (yearUpd y { processSummary s with
                completion_data := cd }).summary_data = some t := by
              simp [hRsum]
            have hPs2 := ps_some t hs2 he2
            have hP2task : (processSummary (yearUpd y { processSummary s with
                completion_data := cd })).task_status_data = some t2 := by
              rw [hPs2]
              simp [hRtask, htask]
            have hP2dep : (processSummary (yearUpd y { processSummary s with
                completion_data := cd })).departments = depsOf t := by
              rw [hPs2]
            have hs2b : (yearUpd y { processSummary s with
                completion_data := cd }).summary_data = some t := hs2
            have h2 : processData y (yearUpd y { processSummary s with
                completion_data := cd }) =
                (true, yearUpd y { processSummary (yearUpd y { processSummary s with
                  completion_data := cd }) with completion_data := cd }) := by
              rw [processData_eq, hs2b]
              dsimp only
              rw [hP2task]
              dsimp only
              simp only [hte2, Bool.false_eq_true, if_false]
              rw [hP2dep, hcd]
            rw [h1]
            dsimp only
            rw [h2]
            dsimp only
            rw [hPs2]
            refine ⟨?_, ?_, ?_⟩
            · simp [hRpd]
            · simp [hRms, msAfter_idem]
            · simp

end ProjectDashboard
